import Mathlib

/-!
Verification of the core of `docker-compose-all` (file `docker_compose_all.py`),
a sequential multi-target command runner for Docker Compose project directories.

Shallow embedding notes.
* A command line is a list of argument strings (`Command`).
* The outcome of `subprocess.check_call` is abstracted by an oracle
  `exitc : Command → String → Int` giving the exit status of running a command
  in a directory; `check_call` raises `CalledProcessError` exactly when the
  status is nonzero.
* The mutable globals and locals of `all_run_commands` (`error_info_list`,
  `error_dirs`, the process working directory) are carried in a `RunState`,
  together with an instrumentation field `trace` recording, in order, every
  subprocess invocation the runner performs.
* `os.walk(dir_path, followlinks=True)` is a Python-library effect; its
  enumeration is supplied as input: a list of entries, each with the visited
  directory (`top`), its subdirectories and its file names, in encounter
  order.  `os.path.abspath` is likewise supplied as an abstract function.
-/

namespace DockerComposeAll

/-- A command line: the list of strings passed to `subprocess`. -/
abbrev Command := List String

def COMMAND_STOP : Command := ["docker-compose", "stop"]

def COMMAND_DOWN : Command := ["docker-compose", "down", "--rmi", "all"]

def COMMAND_BUILD : Command := ["docker-compose", "build", "--pull"]

def COMMAND_UP : Command := ["docker-compose", "up", "-d"]

def COMMAND_PS : Command := ["docker-compose", "ps"]

def COMMAND_TOP : Command := ["docker-compose", "top"]

def COMMAND_CLEAN_NETWORKS : String × Command :=
  ("Removing all unused networks", ["docker", "network", "prune", "-f"])

def COMMAND_CLEAN_IMAGES : String × Command :=
  ("Remove unused images", ["docker", "image", "prune", "-f"])

def COMMAND_CLEAN_BUILDER : String × Command :=
  ("Remove build cache", ["docker", "builder", "prune", "-f"])

def COMMANDS_CLEAN : List (String × Command) :=
  [COMMAND_CLEAN_NETWORKS, COMMAND_CLEAN_IMAGES, COMMAND_CLEAN_BUILDER]

/-- The recognized Docker Compose file names (`DOCKER_COMPOSE_FILENAME_SET`). -/
def DOCKER_COMPOSE_FILENAME_SET : List String :=
  ["compose.yaml", "compose.yml", "docker-compose.yaml", "docker-compose.yml"]

/-- One entry of the `os.walk` enumeration: the visited directory, its
subdirectory names and its file names.  The Python loop ignores the
subdirectory component. -/
structure WalkEntry where
  top : String
  subdirs : List String
  files : List String
deriving DecidableEq

/-- The test `set(files) & DOCKER_COMPOSE_FILENAME_SET` is truthy: some file
name of the directory is one of the recognized Compose file names. -/
def hasComposeFile (files : List String) : Bool :=
  files.any (fun f => decide (f ∈ DOCKER_COMPOSE_FILENAME_SET))

/-- Embedding of `scan_dirs`: fold over the `os.walk` enumeration, appending
`abspath top` whenever the directory directly holds a Compose file and the
path has not been collected yet. -/
def scan_dirs (abspath : String → String) (walk : List WalkEntry) : List String :=
  walk.foldl
    (fun acc e =>
      if hasComposeFile e.files ∧ abspath e.top ∉ acc then acc ++ [abspath e.top]
      else acc)
    []

/-- One element of the global `error_info_list`: the Python code appends a
string interpolating the directory, the command and the raised
`CalledProcessError` (which carries the exit status). -/
structure ErrorInfo where
  dir : String
  command : Command
  returncode : Int
deriving DecidableEq

/-- The state threaded through `all_run_commands`: the (immutable, in the
absence of mutation) discovered directory list, the local `error_dirs`, the
global `error_info_list`, the process working directory, and the
instrumentation trace of subprocess invocations `(command, directory)`. -/
structure RunState where
  docker_compose_dirs : List String
  error_dirs : List String
  error_info_list : List ErrorInfo
  cwd : String
  trace : List (Command × String)
deriving DecidableEq

/-- The state at the start of `main`'s dispatch: directories just discovered,
both error lists empty, no subprocess run yet. -/
def initState (dirs : List String) (cwd0 : String) : RunState :=
  ⟨dirs, [], [], cwd0, []⟩

/-- Embedding of one inner-loop iteration of `all_run_commands`: skip the
directory if it already failed; otherwise `os.chdir` there, run the command,
and on a nonzero exit status append to `error_info_list` and `error_dirs`. -/
def runOneDir (exitc : Command → String → Int) (command : Command)
    (s : RunState) (dir_path : String) : RunState :=
  if dir_path ∈ s.error_dirs then s
  else
    let s' : RunState :=
      { s with cwd := dir_path, trace := s.trace ++ [(command, dir_path)] }
    if exitc command dir_path = 0 then s'
    else
      { s' with
        error_info_list :=
          s'.error_info_list ++ [⟨dir_path, command, exitc command dir_path⟩],
        error_dirs := s'.error_dirs ++ [dir_path] }

/-- Embedding of the inner `for i, dir_path in enumerate(docker_compose_dirs)`
loop of `all_run_commands`, for a single command. -/
def run_command_all_dirs (exitc : Command → String → Int) (command : Command)
    (s : RunState) : RunState :=
  s.docker_compose_dirs.foldl (runOneDir exitc command) s

/-- Embedding of `all_run_commands`: the outer loop over the command list. -/
def all_run_commands (exitc : Command → String → Int) (s : RunState)
    (commands : List Command) : RunState :=
  commands.foldl (fun s c => run_command_all_dirs exitc c s) s

/-- The command-line flags of the program that influence the modelled
behaviour (`argparse` namespace `shell_args`). -/
structure ShellArgs where
  restart : Bool
  stop : Bool
  down : Bool
  build : Bool
  up : Bool
  ps : Bool
  top : Bool
  dokill : Bool
  normi : Bool
  nopull : Bool
  doclean : Bool
deriving DecidableEq

/-- Effect of `update_docker_compose_commands` on `COMMAND_STOP`. -/
def command_stop (args : ShellArgs) : Command :=
  if args.dokill then ["docker-compose", "kill"] else COMMAND_STOP

/-- Effect of `update_docker_compose_commands` on `COMMAND_DOWN`. -/
def command_down (args : ShellArgs) : Command :=
  if args.normi then ["docker-compose", "down"] else COMMAND_DOWN

/-- Effect of `update_docker_compose_commands` on `COMMAND_BUILD`. -/
def command_build (args : ShellArgs) : Command :=
  if args.nopull then ["docker-compose", "build"] else COMMAND_BUILD

/-- The command pipeline selected by `main`'s `if`/`elif` dispatch over the
mutually exclusive operation flags, via the `all_restart` .. `all_stop`
wrappers; the empty pipeline when no operation flag is set. -/
def selected_commands (args : ShellArgs) : List Command :=
  if args.restart then
    [command_stop args, command_down args, command_build args, COMMAND_UP, COMMAND_PS]
  else if args.down then [command_stop args, command_down args]
  else if args.build then [command_build args]
  else if args.up then [COMMAND_UP]
  else if args.ps then [COMMAND_PS]
  else if args.top then [COMMAND_TOP]
  else if args.stop then [command_stop args]
  else []

/-- The commands `clean` runs, in order: the second components of
`COMMANDS_CLEAN`. -/
def clean_trace : List Command := COMMANDS_CLEAN.map (fun p => p.2)

/-- The observable outcome of `main` from discovery onwards: the discovered
directories, the runner's final state, the errors reported at the end, whether
`clean` was invoked and which commands it ran, and the process exit status. -/
structure MainResult where
  dirs : List String
  final : RunState
  reported_errors : List ErrorInfo
  clean_ran : Bool
  clean_commands_run : List Command
  exit_code : Nat
deriving DecidableEq

/-- Embedding of `main` from `scan_dirs` to the end: run the selected
pipeline, then either report every recorded error, skip `clean`, and exit
with status 1, or (no recorded error) run `clean` when `--doclean` was given
and exit with status 0. -/
def mainRun (abspath : String → String) (walk : List WalkEntry)
    (exitc : Command → String → Int) (args : ShellArgs) (cwd0 : String) :
    MainResult :=
  let dirs := scan_dirs abspath walk
  let s1 := all_run_commands exitc (initState dirs cwd0) (selected_commands args)
  if s1.error_info_list.length > 0 then
    { dirs := dirs, final := s1, reported_errors := s1.error_info_list,
      clean_ran := false, clean_commands_run := [], exit_code := 1 }
  else
    { dirs := dirs, final := s1, reported_errors := [],
      clean_ran := args.doclean,
      clean_commands_run := if args.doclean then clean_trace else [],
      exit_code := 0 }

/-! Specification-side derived forms, computed from the same oracle. -/

/-- The directories a single command pass actually invokes, given the failed
set at the start of the pass: the not-yet-failed directories, in list order. -/
def invoked_dirs (failed l : List String) : List String :=
  l.filter (fun d => decide (d ∉ failed))

/-- The directories a single command pass newly marks as failed: those not
yet failed in which the command exits nonzero, in list order. -/
def newly_failed_dirs (exitc : Command → String → Int) (c : Command)
    (failed l : List String) : List String :=
  l.filter (fun d => decide (d ∉ failed ∧ exitc c d ≠ 0))

/-- The commands of a pipeline a fixed directory receives: every command up
to and including the first one that exits nonzero there. -/
def takeUntilFail (exitc : Command → String → Int) (d : String) :
    List Command → List Command
  | [] => []
  | c :: rest =>
    if exitc c d = 0 then c :: takeUntilFail exitc d rest else [c]

/-- The commands a trace records as run in directory `d`, in order. -/
def commandsRunIn (d : String) : List (Command × String) → List Command
  | [] => []
  | (c, d') :: rest =>
    if d' = d then c :: commandsRunIn d rest else commandsRunIn d rest

/-- The command-major invocation order: for each command of the pipeline in
turn, invoke it in every not-yet-failed directory in discovery order, then
extend the failed set with the directories that just failed. -/
def command_major_trace (exitc : Command → String → Int) (dirs : List String)
    (failed : List String) : List Command → List (Command × String)
  | [] => []
  | c :: rest =>
    (invoked_dirs failed dirs).map (fun d => (c, d)) ++
      command_major_trace exitc dirs
        (failed ++ newly_failed_dirs exitc c failed dirs) rest

/-- The failed set after running a whole pipeline, command-major. -/
def failed_after (exitc : Command → String → Int) (dirs : List String)
    (failed : List String) : List Command → List String
  | [] => failed
  | c :: rest =>
    failed_after exitc dirs (failed ++ newly_failed_dirs exitc c failed dirs) rest

/-- Keep the first occurrence of each element, preserving order: the shape of
the `not in` accumulation in `scan_dirs`. -/
def dedup_first (l : List String) : List String :=
  l.foldl (fun acc x => if x ∈ acc then acc else acc ++ [x]) []

/-! Basic structural lemmas about the runner. -/

theorem runOneDir_docker_compose_dirs (exitc : Command → String → Int)
    (c : Command) (s : RunState) (d : String) :
    (runOneDir exitc c s d).docker_compose_dirs = s.docker_compose_dirs := by
  by_cases h1 : d ∈ s.error_dirs <;> by_cases h2 : exitc c d = 0 <;>
    simp [runOneDir, h1, h2]

theorem foldl_runOneDir_docker_compose_dirs (exitc : Command → String → Int)
    (c : Command) :
    ∀ (l : List String) (s : RunState),
      (l.foldl (runOneDir exitc c) s).docker_compose_dirs
        = s.docker_compose_dirs := by
  intro l
  induction l with
  | nil => intro s; rfl
  | cons d l ih =>
    intro s
    rw [List.foldl_cons, ih, runOneDir_docker_compose_dirs]

theorem all_run_commands_docker_compose_dirs (exitc : Command → String → Int) :
    ∀ (cs : List Command) (s : RunState),
      (all_run_commands exitc s cs).docker_compose_dirs
        = s.docker_compose_dirs := by
  intro cs
  induction cs with
  | nil => intro s; rfl
  | cons c cs ih =>
    intro s
    show (all_run_commands exitc (run_command_all_dirs exitc c s) cs).docker_compose_dirs
      = s.docker_compose_dirs
    rw [ih, run_command_all_dirs, foldl_runOneDir_docker_compose_dirs]

/-- Closed form of one command pass over a duplicate-free directory list: the
directory list is unchanged, the failed list and the error-info list are
extended by the newly failing directories (in order), and the trace is
extended by one invocation per not-yet-failed directory (in order). -/
theorem pass_components (exitc : Command → String → Int) (c : Command) :
    ∀ (l : List String) (s : RunState), l.Nodup →
      (l.foldl (runOneDir exitc c) s).error_dirs
          = s.error_dirs ++ newly_failed_dirs exitc c s.error_dirs l ∧
        (l.foldl (runOneDir exitc c) s).error_info_list
          = s.error_info_list
            ++ (newly_failed_dirs exitc c s.error_dirs l).map
              (fun d => ⟨d, c, exitc c d⟩) ∧
        (l.foldl (runOneDir exitc c) s).trace
          = s.trace ++ (invoked_dirs s.error_dirs l).map (fun d => (c, d)) := by
  intro l
  induction l with
  | nil =>
    intro s _
    simp [invoked_dirs, newly_failed_dirs]
  | cons d l ih =>
    intro s hnd
    rw [List.nodup_cons] at hnd
    obtain ⟨hdl, hl⟩ := hnd
    by_cases hmem : d ∈ s.error_dirs
    · have hr : runOneDir exitc c s d = s := by simp [runOneDir, hmem]
      rw [List.foldl_cons, hr]
      have hinv : invoked_dirs s.error_dirs (d :: l)
          = invoked_dirs s.error_dirs l := by
        simp [invoked_dirs, hmem]
      have hnew : newly_failed_dirs exitc c s.error_dirs (d :: l)
          = newly_failed_dirs exitc c s.error_dirs l := by
        simp [newly_failed_dirs, hmem]
      rw [hinv, hnew]
      exact ih s hl
    · by_cases hex : exitc c d = 0
      · have hr : runOneDir exitc c s d
            = { s with cwd := d, trace := s.trace ++ [(c, d)] } := by
          simp [runOneDir, hmem, hex]
        rw [List.foldl_cons, hr]
        obtain ⟨ih1, ih2, ih3⟩ :=
          ih { s with cwd := d, trace := s.trace ++ [(c, d)] } hl
        have hnew : newly_failed_dirs exitc c s.error_dirs (d :: l)
            = newly_failed_dirs exitc c s.error_dirs l := by
          simp [newly_failed_dirs, hex]
        have hinv : invoked_dirs s.error_dirs (d :: l)
            = d :: invoked_dirs s.error_dirs l := by
          simp [invoked_dirs, hmem]
        refine ⟨?_, ?_, ?_⟩
        · rw [ih1, hnew]
        · rw [ih2, hnew]
        · rw [ih3, hinv]
          simp
      · have hr : runOneDir exitc c s d
            = { s with cwd := d, trace := s.trace ++ [(c, d)], error_info_list := s.error_info_list ++ [⟨d, c, exitc c d⟩], error_dirs := s.error_dirs ++ [d] } := by
          simp [runOneDir, hmem, hex]
        rw [List.foldl_cons, hr]
        obtain ⟨ih1, ih2, ih3⟩ :=
          ih { s with cwd := d, trace := s.trace ++ [(c, d)], error_info_list := s.error_info_list ++ [⟨d, c, exitc c d⟩], error_dirs := s.error_dirs ++ [d] } hl
        have hxne : ∀ x ∈ l, x ≠ d := fun x hx hxd => hdl (hxd ▸ hx)
        have hcong1 : invoked_dirs (s.error_dirs ++ [d]) l
            = invoked_dirs s.error_dirs l := by
          unfold invoked_dirs
          apply List.filter_congr
          intro x hx
          have : (x ∈ s.error_dirs ++ [d]) ↔ (x ∈ s.error_dirs) := by
            simp [List.mem_append, hxne x hx]
          simp [this]
        have hcong2 : newly_failed_dirs exitc c (s.error_dirs ++ [d]) l
            = newly_failed_dirs exitc c s.error_dirs l := by
          unfold newly_failed_dirs
          apply List.filter_congr
          intro x hx
          have : (x ∈ s.error_dirs ++ [d]) ↔ (x ∈ s.error_dirs) := by
            simp [List.mem_append, hxne x hx]
          simp [this]
        have hnew : newly_failed_dirs exitc c s.error_dirs (d :: l)
            = d :: newly_failed_dirs exitc c s.error_dirs l := by
          simp [newly_failed_dirs, hmem, hex]
        have hinv : invoked_dirs s.error_dirs (d :: l)
            = d :: invoked_dirs s.error_dirs l := by
          simp [invoked_dirs, hmem]
        refine ⟨?_, ?_, ?_⟩
        · rw [ih1, hcong2, hnew]
          simp
        · rw [ih2, hcong2, hnew]
          simp
        · rw [ih3, hcong1, hinv]
          simp

theorem all_run_commands_nil (exitc : Command → String → Int) (s : RunState) :
    all_run_commands exitc s [] = s := rfl

theorem all_run_commands_cons (exitc : Command → String → Int) (s : RunState)
    (c : Command) (cs : List Command) :
    all_run_commands exitc s (c :: cs)
      = all_run_commands exitc (run_command_all_dirs exitc c s) cs := rfl

theorem pass_error_dirs (exitc : Command → String → Int) (c : Command)
    (s : RunState) (hnd : s.docker_compose_dirs.Nodup) :
    (run_command_all_dirs exitc c s).error_dirs
      = s.error_dirs
        ++ newly_failed_dirs exitc c s.error_dirs s.docker_compose_dirs :=
  (pass_components exitc c s.docker_compose_dirs s hnd).1

theorem pass_error_info (exitc : Command → String → Int) (c : Command)
    (s : RunState) (hnd : s.docker_compose_dirs.Nodup) :
    (run_command_all_dirs exitc c s).error_info_list
      = s.error_info_list
        ++ (newly_failed_dirs exitc c s.error_dirs s.docker_compose_dirs).map
          (fun d => ⟨d, c, exitc c d⟩) :=
  (pass_components exitc c s.docker_compose_dirs s hnd).2.1

theorem pass_trace (exitc : Command → String → Int) (c : Command)
    (s : RunState) (hnd : s.docker_compose_dirs.Nodup) :
    (run_command_all_dirs exitc c s).trace
      = s.trace
        ++ (invoked_dirs s.error_dirs s.docker_compose_dirs).map
          (fun d => (c, d)) :=
  (pass_components exitc c s.docker_compose_dirs s hnd).2.2

theorem pass_docker_compose_dirs (exitc : Command → String → Int)
    (c : Command) (s : RunState) :
    (run_command_all_dirs exitc c s).docker_compose_dirs
      = s.docker_compose_dirs :=
  foldl_runOneDir_docker_compose_dirs exitc c s.docker_compose_dirs s

theorem commandsRunIn_append (d : String) (t1 t2 : List (Command × String)) :
    commandsRunIn d (t1 ++ t2) = commandsRunIn d t1 ++ commandsRunIn d t2 := by
  induction t1 with
  | nil => simp [commandsRunIn]
  | cons p t1 ih =>
    obtain ⟨c, d'⟩ := p
    by_cases h : d' = d <;> simp [commandsRunIn, h, ih]

/-- In a pass over a duplicate-free directory list, a fixed directory is
invoked exactly once if it is in the list, never otherwise. -/
theorem commandsRunIn_map_pairs (c : Command) (d : String) :
    ∀ l : List String, l.Nodup →
      commandsRunIn d (l.map (fun x => (c, x)))
        = if d ∈ l then [c] else [] := by
  intro l
  induction l with
  | nil => intro _; simp [commandsRunIn]
  | cons x l ih =>
    intro hnd
    rw [List.nodup_cons] at hnd
    obtain ⟨hxl, hl⟩ := hnd
    by_cases hxd : x = d
    · have hdl : d ∉ l := hxd ▸ hxl
      have h0 : commandsRunIn d (l.map (fun y => (c, y))) = [] := by
        rw [ih hl, if_neg hdl]
      have hmem : d ∈ x :: l := by
        rw [hxd] at hxl ⊢
        exact List.mem_cons_self d l
      simp [commandsRunIn, hxd, h0, hmem]
    · have hne : ¬ d = x := fun h => hxd h.symm
      simp [commandsRunIn, hxd, ih hl, List.mem_cons, hne]

/-- Per-directory behaviour of a whole batch over a duplicate-free directory
list: the commands recorded as run in a directory are, beyond what the trace
already held, exactly the pipeline commands up to and including the first one
that exits nonzero there, provided the directory was discovered and has not
failed yet, and nothing otherwise. -/
theorem run_trace_per_dir (exitc : Command → String → Int) (d : String) :
    ∀ (cs : List Command) (s : RunState), s.docker_compose_dirs.Nodup →
      commandsRunIn d (all_run_commands exitc s cs).trace
        = commandsRunIn d s.trace
          ++ (if d ∈ s.docker_compose_dirs ∧ d ∉ s.error_dirs then
              takeUntilFail exitc d cs
            else []) := by
  intro cs
  induction cs with
  | nil =>
    intro s _
    rw [all_run_commands_nil]
    by_cases h : d ∈ s.docker_compose_dirs ∧ d ∉ s.error_dirs <;>
      simp [takeUntilFail, h]
  | cons c cs ih =>
    intro s hnd
    rw [all_run_commands_cons]
    have hnd' : (run_command_all_dirs exitc c s).docker_compose_dirs.Nodup := by
      rw [pass_docker_compose_dirs]; exact hnd
    rw [ih (run_command_all_dirs exitc c s) hnd']
    rw [pass_trace exitc c s hnd, commandsRunIn_append]
    have hnodup : (invoked_dirs s.error_dirs s.docker_compose_dirs).Nodup := by
      unfold invoked_dirs
      exact hnd.filter _
    rw [commandsRunIn_map_pairs c d _ hnodup]
    have hmem_inv : (d ∈ invoked_dirs s.error_dirs s.docker_compose_dirs)
        ↔ (d ∈ s.docker_compose_dirs ∧ d ∉ s.error_dirs) := by
      simp [invoked_dirs, List.mem_filter]
    have hmem_err : (d ∈ (run_command_all_dirs exitc c s).error_dirs)
        ↔ (d ∈ s.error_dirs
            ∨ (d ∈ s.docker_compose_dirs ∧ d ∉ s.error_dirs ∧ exitc c d ≠ 0)) := by
      rw [pass_error_dirs exitc c s hnd]
      simp [newly_failed_dirs, List.mem_append, List.mem_filter, and_assoc]
    rw [pass_docker_compose_dirs]
    by_cases hd : d ∈ s.docker_compose_dirs
    · by_cases he : d ∈ s.error_dirs
      · have h1 : ¬ (d ∈ invoked_dirs s.error_dirs s.docker_compose_dirs) := by
          rw [hmem_inv]; exact fun h => h.2 he
        have h2 : d ∈ (run_command_all_dirs exitc c s).error_dirs :=
          hmem_err.mpr (Or.inl he)
        simp [h1, h2, he]
      · by_cases hx : exitc c d = 0
        · have h1 : d ∈ invoked_dirs s.error_dirs s.docker_compose_dirs :=
            hmem_inv.mpr ⟨hd, he⟩
          have h2 : ¬ d ∈ (run_command_all_dirs exitc c s).error_dirs := by
            rw [hmem_err]
            rintro (h | ⟨_, _, hne⟩)
            · exact he h
            · exact hne hx
          simp [h1, h2, hd, he, takeUntilFail, hx]
        · have h1 : d ∈ invoked_dirs s.error_dirs s.docker_compose_dirs :=
            hmem_inv.mpr ⟨hd, he⟩
          have h2 : d ∈ (run_command_all_dirs exitc c s).error_dirs :=
            hmem_err.mpr (Or.inr ⟨hd, he, hx⟩)
          simp [h1, h2, hd, he, takeUntilFail, hx]
    · have h1 : ¬ (d ∈ invoked_dirs s.error_dirs s.docker_compose_dirs) := by
        rw [hmem_inv]; exact fun h => hd h.1
      have h2 : (d ∈ (run_command_all_dirs exitc c s).error_dirs) ↔ (d ∈ s.error_dirs) := by
        rw [hmem_err]
        constructor
        · rintro (h | ⟨h, _⟩)
          · exact h
          · exact absurd h hd
        · exact Or.inl
      by_cases he : d ∈ s.error_dirs
      · simp [h1, h2, he, hd]
      · simp [h1, h2, he, hd]

/-- The commands a directory receives form a sublist (in particular a prefix)
of the pipeline. -/
theorem takeUntilFail_sublist (exitc : Command → String → Int) (d : String) :
    ∀ cs : List Command, List.Sublist (takeUntilFail exitc d cs) cs := by
  intro cs
  induction cs with
  | nil => simp [takeUntilFail]
  | cons c cs ih =>
    by_cases h : exitc c d = 0
    · rw [takeUntilFail, if_pos h]
      exact ih.cons₂ c
    · rw [takeUntilFail, if_neg h]
      exact (List.nil_sublist cs).cons₂ c

/-- Counting an invocation pair in a trace is counting the command among the
commands run in that directory. -/
theorem count_pair_eq_count (c : Command) (d : String) :
    ∀ trace : List (Command × String),
      trace.count (c, d) = (commandsRunIn d trace).count c := by
  intro trace
  induction trace with
  | nil => simp [commandsRunIn]
  | cons p t ih =>
    obtain ⟨c', d'⟩ := p
    by_cases hd : d' = d <;> by_cases hc : c' = c <;>
      simp [commandsRunIn, hd, hc, List.count_cons, ih, Prod.ext_iff]

/-- Closed form of a whole batch over a duplicate-free directory list: the
trace extends command-major (outer loop over the pipeline, inner loop over
the directories in discovery order, skipping failed ones), and the failed set
grows accordingly. -/
theorem run_closed (exitc : Command → String → Int) :
    ∀ (cs : List Command) (s : RunState), s.docker_compose_dirs.Nodup →
      (all_run_commands exitc s cs).trace
          = s.trace
            ++ command_major_trace exitc s.docker_compose_dirs s.error_dirs cs ∧
        (all_run_commands exitc s cs).error_dirs
          = failed_after exitc s.docker_compose_dirs s.error_dirs cs := by
  intro cs
  induction cs with
  | nil =>
    intro s _
    simp [command_major_trace, failed_after, all_run_commands_nil]
  | cons c cs ih =>
    intro s hnd
    rw [all_run_commands_cons]
    have hnd' : (run_command_all_dirs exitc c s).docker_compose_dirs.Nodup := by
      rw [pass_docker_compose_dirs]; exact hnd
    obtain ⟨iht, ihe⟩ := ih (run_command_all_dirs exitc c s) hnd'
    constructor
    · rw [iht, pass_trace exitc c s hnd, pass_docker_compose_dirs,
        pass_error_dirs exitc c s hnd]
      simp [command_major_trace, List.append_assoc]
    · rw [ihe, pass_docker_compose_dirs, pass_error_dirs exitc c s hnd]
      simp [failed_after]

/-- A single iteration depends on the outcome oracle only through the exit
status of the invoked pair. -/
theorem runOneDir_congr (exitc1 exitc2 : Command → String → Int) (c : Command)
    (s : RunState) (d : String) (h : exitc1 c d = exitc2 c d) :
    runOneDir exitc1 c s d = runOneDir exitc2 c s d := by
  unfold runOneDir
  rw [h]

theorem fold_runOneDir_congr (exitc1 exitc2 : Command → String → Int)
    (c : Command) :
    ∀ (l : List String) (s : RunState),
      (∀ x ∈ l, exitc1 c x = exitc2 c x) →
      l.foldl (runOneDir exitc1 c) s = l.foldl (runOneDir exitc2 c) s := by
  intro l
  induction l with
  | nil => intro s _; rfl
  | cons d l ih =>
    intro s h
    rw [List.foldl_cons, List.foldl_cons,
      runOneDir_congr exitc1 exitc2 c s d (h d (List.mem_cons_self d l))]
    exact ih _ (fun x hx => h x (List.mem_cons_of_mem d hx))

/-- The whole batch depends on the outcome oracle only through the exit
statuses on the pipeline commands and the discovered directories. -/
theorem all_run_commands_congr (exitc1 exitc2 : Command → String → Int) :
    ∀ (cs : List Command) (s : RunState),
      (∀ c ∈ cs, ∀ x ∈ s.docker_compose_dirs, exitc1 c x = exitc2 c x) →
      all_run_commands exitc1 s cs = all_run_commands exitc2 s cs := by
  intro cs
  induction cs with
  | nil => intro s _; rfl
  | cons c cs ih =>
    intro s h
    rw [all_run_commands_cons, all_run_commands_cons]
    have hpass : run_command_all_dirs exitc1 c s = run_command_all_dirs exitc2 c s := by
      unfold run_command_all_dirs
      exact fold_runOneDir_congr exitc1 exitc2 c s.docker_compose_dirs s
        (fun x hx => h c (List.mem_cons_self c cs) x hx)
    rw [hpass]
    apply ih
    intro c' hc' x hx
    rw [pass_docker_compose_dirs] at hx
    exact h c' (List.mem_cons_of_mem c hc') x hx

/-- The error-bookkeeping invariant: the failed-directory list is duplicate
free, lists exactly the directories of the error-info entries in order, and
only holds discovered directories. -/
def ErrInv (s : RunState) : Prop :=
  s.error_dirs.Nodup ∧
    s.error_info_list.map (fun i => i.dir) = s.error_dirs ∧
    s.error_dirs ⊆ s.docker_compose_dirs

theorem runOneDir_err_inv (exitc : Command → String → Int) (c : Command)
    (s : RunState) (dp : String) (hmem : dp ∈ s.docker_compose_dirs)
    (h : ErrInv s) : ErrInv (runOneDir exitc c s dp) := by
  obtain ⟨h1, h2, h3⟩ := h
  unfold runOneDir
  by_cases hd : dp ∈ s.error_dirs
  · simp only [if_pos hd]
    exact ⟨h1, h2, h3⟩
  · by_cases hx : exitc c dp = 0
    · simp only [if_neg hd, if_pos hx]
      exact ⟨h1, h2, h3⟩
    · simp only [if_neg hd, if_neg hx]
      refine ⟨?_, ?_, ?_⟩
      · simp [List.nodup_append, h1, hd]
      · simp [h2]
      · intro x hx'
        rcases List.mem_append.mp hx' with h' | h'
        · exact h3 h'
        · rw [List.mem_singleton.mp h']
          exact hmem

theorem fold_runOneDir_err_inv (exitc : Command → String → Int) (c : Command) :
    ∀ (l : List String) (s : RunState), l ⊆ s.docker_compose_dirs →
      ErrInv s → ErrInv (l.foldl (runOneDir exitc c) s) := by
  intro l
  induction l with
  | nil => intro s _ h; exact h
  | cons d l ih =>
    intro s hsub h
    rw [List.foldl_cons]
    apply ih
    · intro x hx
      rw [runOneDir_docker_compose_dirs]
      exact hsub (List.mem_cons_of_mem d hx)
    · exact runOneDir_err_inv exitc c s d (hsub (List.mem_cons_self d l)) h

theorem all_run_commands_err_inv (exitc : Command → String → Int) :
    ∀ (cs : List Command) (s : RunState),
      ErrInv s → ErrInv (all_run_commands exitc s cs) := by
  intro cs
  induction cs with
  | nil => intro s h; exact h
  | cons c cs ih =>
    intro s h
    rw [all_run_commands_cons]
    apply ih
    exact fold_runOneDir_err_inv exitc c s.docker_compose_dirs s
      (fun x hx => hx) h

/-! Lemmas about `scan_dirs`. -/

/-- The `scan_dirs` fold is the first-occurrence deduplication of the
Compose-file-bearing walk entries, mapped through `abspath`. -/
theorem scan_dirs_foldl_aux (abspath : String → String) :
    ∀ (walk : List WalkEntry) (acc : List String),
      walk.foldl
          (fun acc e =>
            if hasComposeFile e.files ∧ abspath e.top ∉ acc then
              acc ++ [abspath e.top]
            else acc)
          acc
        = ((walk.filter (fun e => hasComposeFile e.files)).map
            (fun e => abspath e.top)).foldl
            (fun acc x => if x ∈ acc then acc else acc ++ [x]) acc := by
  intro walk
  induction walk with
  | nil => intro acc; rfl
  | cons e walk ih =>
    intro acc
    by_cases hc : hasComposeFile e.files
    · rw [List.foldl_cons]
      have hfil : (e :: walk).filter (fun e => hasComposeFile e.files)
          = e :: walk.filter (fun e => hasComposeFile e.files) := by
        simp [List.filter_cons, hc]
      rw [hfil, List.map_cons, List.foldl_cons]
      by_cases hp : abspath e.top ∈ acc
      · rw [if_pos hp, if_neg (fun h => h.2 hp)]
        exact ih acc
      · rw [if_neg hp, if_pos ⟨hc, hp⟩]
        exact ih (acc ++ [abspath e.top])
    · rw [List.foldl_cons]
      have hfil : (e :: walk).filter (fun e => hasComposeFile e.files)
          = walk.filter (fun e => hasComposeFile e.files) := by
        simp [List.filter_cons, hc]
      rw [hfil, if_neg (fun h => hc h.1)]
      exact ih acc

theorem scan_dirs_eq_dedup_first (abspath : String → String)
    (walk : List WalkEntry) :
    scan_dirs abspath walk
      = dedup_first ((walk.filter (fun e => hasComposeFile e.files)).map
          (fun e => abspath e.top)) := by
  unfold scan_dirs dedup_first
  exact scan_dirs_foldl_aux abspath walk []

theorem dedup_first_foldl_nodup :
    ∀ (l acc : List String), acc.Nodup →
      (l.foldl (fun acc x => if x ∈ acc then acc else acc ++ [x]) acc).Nodup := by
  intro l
  induction l with
  | nil => intro acc h; exact h
  | cons x l ih =>
    intro acc h
    rw [List.foldl_cons]
    by_cases hx : x ∈ acc
    · rw [if_pos hx]
      exact ih acc h
    · rw [if_neg hx]
      apply ih
      simp [List.nodup_append, h, hx]

theorem dedup_first_foldl_split :
    ∀ (l acc : List String),
      ∃ t, l.foldl (fun acc x => if x ∈ acc then acc else acc ++ [x]) acc
          = acc ++ t ∧ List.Sublist t l := by
  intro l
  induction l with
  | nil => intro acc; exact ⟨[], by simp, List.nil_sublist []⟩
  | cons x l ih =>
    intro acc
    rw [List.foldl_cons]
    by_cases hx : x ∈ acc
    · rw [if_pos hx]
      obtain ⟨t, ht, hs⟩ := ih acc
      exact ⟨t, ht, hs.cons x⟩
    · rw [if_neg hx]
      obtain ⟨t, ht, hs⟩ := ih (acc ++ [x])
      refine ⟨x :: t, ?_, hs.cons₂ x⟩
      rw [ht, List.append_assoc, List.singleton_append]

theorem scan_dirs_nodup (abspath : String → String) (walk : List WalkEntry) :
    (scan_dirs abspath walk).Nodup := by
  rw [scan_dirs_eq_dedup_first]
  exact dedup_first_foldl_nodup _ [] List.nodup_nil

theorem scan_dirs_sublist (abspath : String → String) (walk : List WalkEntry) :
    List.Sublist (scan_dirs abspath walk) (walk.map (fun e => abspath e.top)) := by
  rw [scan_dirs_eq_dedup_first]
  obtain ⟨t, ht, hs⟩ := dedup_first_foldl_split
    ((walk.filter (fun e => hasComposeFile e.files)).map (fun e => abspath e.top)) []
  rw [dedup_first, ht, List.nil_append]
  exact hs.trans ((List.filter_sublist walk).map (fun e => abspath e.top))

/-- In a duplicate-free list every element is counted at most once. -/
theorem count_le_one_of_nodup {α : Type} [BEq α] [LawfulBEq α] {l : List α}
    (h : l.Nodup) (a : α) : l.count a ≤ 1 := by
  induction l with
  | nil => simp
  | cons b l ih =>
    rw [List.nodup_cons] at h
    obtain ⟨hb, hl⟩ := h
    by_cases hba : b = a
    · subst hba
      have h0 : l.count b = 0 := List.count_eq_zero.mpr hb
      simp [List.count_cons, h0]
    · simp [List.count_cons, hba, beq_iff_eq, ih hl]

/-! Claim theorems. -/

/-- C1: in a batch run of `all_run_commands` over duplicate-free discovered
directories, the commands executed in any directory are exactly the pipeline
commands up to and including the first one that fails there: once a command
fails in a directory, no subsequent command of the batch is executed in that
directory, while a directory with no failure so far receives every command. -/
theorem c1_skip_after_failure (exitc : Command → String → Int)
    (dirs : List String) (cwd0 : String) (cs : List Command) (d : String)
    (hnd : dirs.Nodup) (hd : d ∈ dirs) :
    commandsRunIn d (all_run_commands exitc (initState dirs cwd0) cs).trace
      = takeUntilFail exitc d cs := by
  rw [run_trace_per_dir exitc d cs (initState dirs cwd0) hnd]
  simp [initState, commandsRunIn, hd]

/-- Witness for C1: two directories, a two-command pipeline whose first
command fails everywhere; the hypotheses hold for concrete inputs. -/
theorem c1_skip_after_failure_witness :
    (["/a", "/b"] : List String).Nodup ∧ "/a" ∈ (["/a", "/b"] : List String) ∧
      commandsRunIn "/a"
          (all_run_commands (fun _ _ => (1 : Int))
            (initState ["/a", "/b"] "/") [COMMAND_STOP, COMMAND_PS]).trace
        = takeUntilFail (fun _ _ => (1 : Int)) "/a" [COMMAND_STOP, COMMAND_PS] :=
  ⟨by decide, by decide,
    c1_skip_after_failure (fun _ _ => (1 : Int)) ["/a", "/b"] "/"
      [COMMAND_STOP, COMMAND_PS] "/a" (by decide) (by decide)⟩

/-- C2: over duplicate-free discovered directories, the batch trace is
exactly the command-major enumeration — outer iteration over the pipeline in
order, inner iteration over the directories in discovery order, one
invocation per not-yet-failed pair — and the failed set after the batch is
the corresponding accumulation of recorded failures. -/
theorem c2_command_major_order (exitc : Command → String → Int)
    (dirs : List String) (cwd0 : String) (cs : List Command)
    (hnd : dirs.Nodup) :
    (all_run_commands exitc (initState dirs cwd0) cs).trace
        = command_major_trace exitc dirs [] cs ∧
      (all_run_commands exitc (initState dirs cwd0) cs).error_dirs
        = failed_after exitc dirs [] cs := by
  have h := run_closed exitc cs (initState dirs cwd0) hnd
  simpa [initState] using h

/-- Witness for C2: a concrete two-directory, two-command batch. -/
theorem c2_command_major_order_witness :
    (["/a", "/b"] : List String).Nodup ∧
      ((all_run_commands (fun c _ => if c = COMMAND_STOP then 1 else 0)
            (initState ["/a", "/b"] "/") [COMMAND_STOP, COMMAND_PS]).trace
          = command_major_trace (fun c _ => if c = COMMAND_STOP then 1 else 0)
            ["/a", "/b"] [] [COMMAND_STOP, COMMAND_PS] ∧
        (all_run_commands (fun c _ => if c = COMMAND_STOP then 1 else 0)
            (initState ["/a", "/b"] "/") [COMMAND_STOP, COMMAND_PS]).error_dirs
          = failed_after (fun c _ => if c = COMMAND_STOP then 1 else 0)
            ["/a", "/b"] [] [COMMAND_STOP, COMMAND_PS]) :=
  ⟨by decide,
    c2_command_major_order (fun c _ => if c = COMMAND_STOP then 1 else 0)
      ["/a", "/b"] "/" [COMMAND_STOP, COMMAND_PS] (by decide)⟩

/-- C6: no retries — over duplicate-free discovered directories and a
duplicate-free pipeline, each (command, directory) pair is invoked at most
once in the whole batch; in particular a failed command is never re-executed
in the directory where it failed. -/
theorem c6_no_retries (exitc : Command → String → Int) (dirs : List String)
    (cwd0 : String) (cs : List Command) (c : Command) (d : String)
    (hnd : dirs.Nodup) (hcs : cs.Nodup) :
    (all_run_commands exitc (initState dirs cwd0) cs).trace.count (c, d) ≤ 1 := by
  rw [count_pair_eq_count]
  rw [run_trace_per_dir exitc d cs (initState dirs cwd0) hnd]
  simp only [initState, commandsRunIn, List.not_mem_nil, not_false_iff,
    and_true, List.nil_append]
  by_cases hd : d ∈ dirs
  · rw [if_pos hd]
    have hsub := takeUntilFail_sublist exitc d cs
    calc (takeUntilFail exitc d cs).count c ≤ cs.count c := hsub.count_le c
      _ ≤ 1 := count_le_one_of_nodup hcs c
  · rw [if_neg hd]
    simp

/-- Witness for C6: concrete batch where the pair is invoked exactly once. -/
theorem c6_no_retries_witness :
    (["/a"] : List String).Nodup ∧
      ([COMMAND_STOP, COMMAND_PS] : List Command).Nodup ∧
      (all_run_commands (fun _ _ => (0 : Int)) (initState ["/a"] "/")
          [COMMAND_STOP, COMMAND_PS]).trace.count (COMMAND_STOP, "/a") ≤ 1 :=
  ⟨by decide, by decide,
    c6_no_retries (fun _ _ => (0 : Int)) ["/a"] "/" [COMMAND_STOP, COMMAND_PS]
      COMMAND_STOP "/a" (by decide) (by decide)⟩

/-- C7: the runner is sequential and deterministic — two batches from the
same initial state over the same pipeline whose per-invocation outcomes agree
on every pipeline command and discovered directory produce the same
invocation trace, the same failed-directory list and the same error-info
list. -/
theorem c7_deterministic (exitc1 exitc2 : Command → String → Int)
    (dirs : List String) (cwd0 : String) (cs : List Command)
    (h : ∀ c ∈ cs, ∀ x ∈ dirs, exitc1 c x = exitc2 c x) :
    (all_run_commands exitc1 (initState dirs cwd0) cs).trace
        = (all_run_commands exitc2 (initState dirs cwd0) cs).trace ∧
      (all_run_commands exitc1 (initState dirs cwd0) cs).error_dirs
        = (all_run_commands exitc2 (initState dirs cwd0) cs).error_dirs ∧
      (all_run_commands exitc1 (initState dirs cwd0) cs).error_info_list
        = (all_run_commands exitc2 (initState dirs cwd0) cs).error_info_list := by
  have heq : all_run_commands exitc1 (initState dirs cwd0) cs
      = all_run_commands exitc2 (initState dirs cwd0) cs :=
    all_run_commands_congr exitc1 exitc2 cs (initState dirs cwd0) h
  exact ⟨by rw [heq], by rw [heq], by rw [heq]⟩

/-- Witness for C7: two syntactically different oracles agreeing on the
single pipeline command and directory. -/
theorem c7_deterministic_witness :
    (∀ c ∈ ([COMMAND_PS] : List Command), ∀ x ∈ (["/a"] : List String),
        (fun _ _ => (0 : Int)) c x = (fun _ d => if d ∈ (["/a"] : List String) then (0 : Int) else 1) c x) ∧
      ((all_run_commands (fun _ _ => (0 : Int)) (initState ["/a"] "/") [COMMAND_PS]).trace
          = (all_run_commands (fun _ d => if d ∈ (["/a"] : List String) then (0 : Int) else 1)
              (initState ["/a"] "/") [COMMAND_PS]).trace ∧
        (all_run_commands (fun _ _ => (0 : Int)) (initState ["/a"] "/") [COMMAND_PS]).error_dirs
          = (all_run_commands (fun _ d => if d ∈ (["/a"] : List String) then (0 : Int) else 1)
              (initState ["/a"] "/") [COMMAND_PS]).error_dirs ∧
        (all_run_commands (fun _ _ => (0 : Int)) (initState ["/a"] "/") [COMMAND_PS]).error_info_list
          = (all_run_commands (fun _ d => if d ∈ (["/a"] : List String) then (0 : Int) else 1)
              (initState ["/a"] "/") [COMMAND_PS]).error_info_list) :=
  ⟨by decide,
    c7_deterministic (fun _ _ => (0 : Int))
      (fun _ d => if d ∈ (["/a"] : List String) then (0 : Int) else 1)
      ["/a"] "/" [COMMAND_PS] (by decide)⟩

/-- C8: error bookkeeping of a batch — the failed-directory list is duplicate
free, the error-info entries correspond one-to-one (in order) to the failed
directories, every failed directory was discovered, and the number of
recorded errors never exceeds the number of discovered directories. -/
theorem c8_error_bookkeeping (exitc : Command → String → Int)
    (dirs : List String) (cwd0 : String) (cs : List Command) :
    (all_run_commands exitc (initState dirs cwd0) cs).error_dirs.Nodup ∧
      (all_run_commands exitc (initState dirs cwd0) cs).error_info_list.map
          (fun i => i.dir)
        = (all_run_commands exitc (initState dirs cwd0) cs).error_dirs ∧
      (all_run_commands exitc (initState dirs cwd0) cs).error_dirs ⊆ dirs ∧
      (all_run_commands exitc (initState dirs cwd0) cs).error_info_list.length
        ≤ dirs.length := by
  have hinv : ErrInv (all_run_commands exitc (initState dirs cwd0) cs) :=
    all_run_commands_err_inv exitc cs (initState dirs cwd0)
      ⟨List.nodup_nil, rfl, List.nil_subset _⟩
  obtain ⟨h1, h2, h3⟩ := hinv
  have hdirs : (all_run_commands exitc (initState dirs cwd0) cs).docker_compose_dirs
      = dirs := all_run_commands_docker_compose_dirs exitc cs (initState dirs cwd0)
  rw [hdirs] at h3
  refine ⟨h1, h2, h3, ?_⟩
  have hlen : (all_run_commands exitc (initState dirs cwd0) cs).error_info_list.length
      = (all_run_commands exitc (initState dirs cwd0) cs).error_dirs.length := by
    rw [← h2, List.length_map]
  rw [hlen]
  exact (List.subperm_of_subset h1 h3).length_le

/-- C10: frame property — the runner never modifies the discovered directory
list: after any batch the state's directory list is unchanged, and in `main`
the final state still carries exactly what `scan_dirs` returned. -/
theorem c10_dirs_frame (exitc : Command → String → Int) (s : RunState)
    (cs : List Command) (abspath : String → String) (walk : List WalkEntry)
    (args : ShellArgs) (cwd0 : String) :
    (all_run_commands exitc s cs).docker_compose_dirs = s.docker_compose_dirs ∧
      (mainRun abspath walk exitc args cwd0).final.docker_compose_dirs
        = scan_dirs abspath walk := by
  constructor
  · exact all_run_commands_docker_compose_dirs exitc cs s
  · have hfin : (mainRun abspath walk exitc args cwd0).final
        = all_run_commands exitc (initState (scan_dirs abspath walk) cwd0)
          (selected_commands args) := by
      by_cases h : (all_run_commands exitc
          (initState (scan_dirs abspath walk) cwd0)
          (selected_commands args)).error_info_list.length > 0 <;>
        simp [mainRun, h]
    rw [hfin, all_run_commands_docker_compose_dirs]
    rfl

/-- A POSIX path is absolute when it starts with a slash; `os.path.abspath`
always returns such a path. -/
def isAbsPath (p : String) : Bool :=
  match p.data with
  | [] => false
  | c :: _ => c = '/'

/-- C3: discovery — `scan_dirs` returns exactly the walked directories that
directly contain a recognized Compose file, mapped through `abspath`, keeping
the first occurrence of each path: the result is duplicate free, is in
directory-walk encounter order (a sublist of the walked tops), and, provided
`abspath` yields absolute paths on the walked tops, every returned path is
absolute. -/
theorem c3_scan_dirs_discovery (abspath : String → String)
    (walk : List WalkEntry)
    (habs : ∀ e ∈ walk, isAbsPath (abspath e.top) = true) :
    scan_dirs abspath walk
        = dedup_first ((walk.filter (fun e => hasComposeFile e.files)).map
            (fun e => abspath e.top)) ∧
      (scan_dirs abspath walk).Nodup ∧
      List.Sublist (scan_dirs abspath walk)
        (walk.map (fun e => abspath e.top)) ∧
      ∀ dp ∈ scan_dirs abspath walk, isAbsPath dp = true := by
  refine ⟨scan_dirs_eq_dedup_first abspath walk, scan_dirs_nodup abspath walk,
    scan_dirs_sublist abspath walk, ?_⟩
  intro dp hdp
  have hmem : dp ∈ walk.map (fun e => abspath e.top) :=
    (scan_dirs_sublist abspath walk).subset hdp
  obtain ⟨e, he, rfl⟩ := List.mem_map.mp hmem
  exact habs e he

/-- Witness for C3: one walked directory with a Compose file, one without. -/
theorem c3_scan_dirs_discovery_witness :
    (∀ e ∈ ([⟨"/a", [], ["compose.yaml"]⟩, ⟨"/b", [], ["data.txt"]⟩] :
        List WalkEntry), isAbsPath ((fun p => p) e.top) = true) ∧
      (scan_dirs (fun p => p)
            [⟨"/a", [], ["compose.yaml"]⟩, ⟨"/b", [], ["data.txt"]⟩]
          = dedup_first ((([⟨"/a", [], ["compose.yaml"]⟩,
                ⟨"/b", [], ["data.txt"]⟩] : List WalkEntry).filter
              (fun e => hasComposeFile e.files)).map (fun e => (fun p => p) e.top)) ∧
        (scan_dirs (fun p => p)
          [⟨"/a", [], ["compose.yaml"]⟩, ⟨"/b", [], ["data.txt"]⟩]).Nodup ∧
        List.Sublist
          (scan_dirs (fun p => p)
            [⟨"/a", [], ["compose.yaml"]⟩, ⟨"/b", [], ["data.txt"]⟩])
          (([⟨"/a", [], ["compose.yaml"]⟩, ⟨"/b", [], ["data.txt"]⟩] :
            List WalkEntry).map (fun e => (fun p => p) e.top)) ∧
        ∀ dp ∈ scan_dirs (fun p => p)
            [⟨"/a", [], ["compose.yaml"]⟩, ⟨"/b", [], ["data.txt"]⟩],
          isAbsPath dp = true) :=
  ⟨by decide,
    c3_scan_dirs_discovery (fun p => p)
      [⟨"/a", [], ["compose.yaml"]⟩, ⟨"/b", [], ["data.txt"]⟩] (by decide)⟩

/-- C4: after the selected pipeline has been processed, the program exits
with status 1 when at least one failure was recorded — reporting exactly the
recorded error-info entries — and exits with status 0 (reporting nothing)
when no failure was recorded. -/
theorem c4_error_report_and_exit (abspath : String → String)
    (walk : List WalkEntry) (exitc : Command → String → Int)
    (args : ShellArgs) (cwd0 : String) :
    (mainRun abspath walk exitc args cwd0).exit_code
        = (if (mainRun abspath walk exitc args cwd0).final.error_info_list = []
          then 0 else 1) ∧
      (mainRun abspath walk exitc args cwd0).reported_errors
        = (if (mainRun abspath walk exitc args cwd0).final.error_info_list = []
          then []
          else (mainRun abspath walk exitc args cwd0).final.error_info_list) := by
  by_cases h : (all_run_commands exitc (initState (scan_dirs abspath walk) cwd0)
      (selected_commands args)).error_info_list.length > 0
  · have hne : (all_run_commands exitc (initState (scan_dirs abspath walk) cwd0)
        (selected_commands args)).error_info_list ≠ [] := by
      intro he
      rw [he] at h
      simp at h
    simp [mainRun, h, hne]
  · have he : (all_run_commands exitc (initState (scan_dirs abspath walk) cwd0)
        (selected_commands args)).error_info_list = [] :=
      List.length_eq_zero.mp (Nat.eq_zero_of_not_pos h)
    simp [mainRun, h, he]

/-- C5 counterexample: with `--down --doclean` over one discovered project in
which every command fails, all commands of the operation are processed, yet
the program does not run the prune commands — it skips cleanup — refuting the
claim that requesting cleanup always reclaims resources after the batch. -/
theorem c5_clean_counterexample :
    (⟨false, false, true, false, false, false, false, false, false, false, true⟩ :
        ShellArgs).doclean = true ∧
      (mainRun (fun p => p) [⟨"/a", [], ["compose.yaml"]⟩] (fun _ _ => 1)
          ⟨false, false, true, false, false, false, false, false, false, false, true⟩
          "/").clean_ran = false ∧
      (mainRun (fun p => p) [⟨"/a", [], ["compose.yaml"]⟩] (fun _ _ => 1)
          ⟨false, false, true, false, false, false, false, false, false, false, true⟩
          "/").clean_commands_run ≠ clean_trace := by
  refine ⟨rfl, ?_, ?_⟩ <;> decide

/-- C5 (amended): when cleanup is requested, the three prune commands
(unused networks, unused images, build cache, in that order) are run after
the batch exactly when no per-directory failure was recorded; when a failure
was recorded, cleanup is skipped. -/
theorem c5_clean_only_without_errors (abspath : String → String)
    (walk : List WalkEntry) (exitc : Command → String → Int)
    (args : ShellArgs) (cwd0 : String) :
    (mainRun abspath walk exitc args cwd0).clean_commands_run
        = (if args.doclean = true ∧
              (mainRun abspath walk exitc args cwd0).final.error_info_list = []
          then
            [["docker", "network", "prune", "-f"],
              ["docker", "image", "prune", "-f"],
              ["docker", "builder", "prune", "-f"]]
          else []) ∧
      (mainRun abspath walk exitc args cwd0).clean_ran
        = (args.doclean &&
            (mainRun abspath walk exitc args cwd0).final.error_info_list.isEmpty) := by
  by_cases h : (all_run_commands exitc (initState (scan_dirs abspath walk) cwd0)
      (selected_commands args)).error_info_list.length > 0
  · have hne : (all_run_commands exitc (initState (scan_dirs abspath walk) cwd0)
        (selected_commands args)).error_info_list ≠ [] := by
      intro he
      rw [he] at h
      simp at h
    simp [mainRun, h, hne, List.isEmpty_iff]
  · have he : (all_run_commands exitc (initState (scan_dirs abspath walk) cwd0)
        (selected_commands args)).error_info_list = [] :=
      List.length_eq_zero.mp (Nat.eq_zero_of_not_pos h)
    cases hdc : args.doclean <;>
      simp [mainRun, h, he, hdc, clean_trace, COMMANDS_CLEAN,
        COMMAND_CLEAN_NETWORKS, COMMAND_CLEAN_IMAGES, COMMAND_CLEAN_BUILDER]

/-- C9: when none of the operation flags is selected, the program performs
discovery but executes no command in any directory, records no errors, exits
with success status, and runs cleanup exactly when `--doclean` was given. -/
theorem c9_no_operation_selected (abspath : String → String)
    (walk : List WalkEntry) (exitc : Command → String → Int)
    (args : ShellArgs) (cwd0 : String)
    (h : args.restart = false ∧ args.down = false ∧ args.build = false ∧
      args.up = false ∧ args.ps = false ∧ args.top = false ∧ args.stop = false) :
    (mainRun abspath walk exitc args cwd0).dirs = scan_dirs abspath walk ∧
      (mainRun abspath walk exitc args cwd0).final.trace = [] ∧
      (mainRun abspath walk exitc args cwd0).final.error_info_list = [] ∧
      (mainRun abspath walk exitc args cwd0).exit_code = 0 ∧
      (mainRun abspath walk exitc args cwd0).clean_ran = args.doclean := by
  obtain ⟨h1, h2, h3, h4, h5, h6, h7⟩ := h
  have hsel : selected_commands args = [] := by
    simp [selected_commands, h1, h2, h3, h4, h5, h6, h7]
  simp [mainRun, hsel, all_run_commands_nil, initState]

/-- Witness for C9: all operation flags off, `--doclean` on. -/
theorem c9_no_operation_selected_witness :
    ((⟨false, false, false, false, false, false, false, false, false, false, true⟩ :
          ShellArgs).restart = false ∧
        (⟨false, false, false, false, false, false, false, false, false, false, true⟩ :
          ShellArgs).down = false ∧
        (⟨false, false, false, false, false, false, false, false, false, false, true⟩ :
          ShellArgs).build = false ∧
        (⟨false, false, false, false, false, false, false, false, false, false, true⟩ :
          ShellArgs).up = false ∧
        (⟨false, false, false, false, false, false, false, false, false, false, true⟩ :
          ShellArgs).ps = false ∧
        (⟨false, false, false, false, false, false, false, false, false, false, true⟩ :
          ShellArgs).top = false ∧
        (⟨false, false, false, false, false, false, false, false, false, false, true⟩ :
          ShellArgs).stop = false) ∧
      ((mainRun (fun p => p) [⟨"/a", [], ["compose.yaml"]⟩] (fun _ _ => 1)
            ⟨false, false, false, false, false, false, false, false, false, false, true⟩
            "/").dirs
          = scan_dirs (fun p => p) [⟨"/a", [], ["compose.yaml"]⟩] ∧
        (mainRun (fun p => p) [⟨"/a", [], ["compose.yaml"]⟩] (fun _ _ => 1)
            ⟨false, false, false, false, false, false, false, false, false, false, true⟩
            "/").final.trace = [] ∧
        (mainRun (fun p => p) [⟨"/a", [], ["compose.yaml"]⟩] (fun _ _ => 1)
            ⟨false, false, false, false, false, false, false, false, false, false, true⟩
            "/").final.error_info_list = [] ∧
        (mainRun (fun p => p) [⟨"/a", [], ["compose.yaml"]⟩] (fun _ _ => 1)
            ⟨false, false, false, false, false, false, false, false, false, false, true⟩
            "/").exit_code = 0 ∧
        (mainRun (fun p => p) [⟨"/a", [], ["compose.yaml"]⟩] (fun _ _ => 1)
            ⟨false, false, false, false, false, false, false, false, false, false, true⟩
            "/").clean_ran
          = (⟨false, false, false, false, false, false, false, false, false, false, true⟩ :
              ShellArgs).doclean) :=
  ⟨by decide,
    c9_no_operation_selected (fun p => p) [⟨"/a", [], ["compose.yaml"]⟩]
      (fun _ _ => 1)
      ⟨false, false, false, false, false, false, false, false, false, false, true⟩
      "/" (by decide)⟩

end DockerComposeAll
